import Mathlib

/-!
Verification of the zinc open-addressing hash-table engine
(`zinc::detail::RawHashSet`, `src/include/zinc/data/detail/raw_hash_set.h`)
and its map extension layer (`zinc::detail::RawHashMap`,
`src/include/zinc/containers/detail/raw_hash_map.h`).

The engine is shallowly embedded: the parallel slot/state arrays of the
single C++ allocation become two lists of equal length, machine `size_t`
values become `Nat`, the hash functor member becomes a `hash : K → Nat`
field of the table, and the equality functor is structural equality on a
key type with decidable equality (the default `EqualTo`).  `size_t`
modulo by zero and a probe loop that never terminates are both undefined
behaviour in the C++ source; operations that can reach them return
`Option`, with `none` standing for that undefined outcome.

The load-factor comparison `size() + 1 > bucket_count() * max_load_factor()`
is performed by the C++ code in `float` after converting both sides.  The
literal `0.72f` is exactly the rational 12079596 / 2^24 = 3019899 / 4194304,
and for the small integer operands exercised here the `float` comparison
agrees with the exact rational one, which in turn equals the integer
comparison `(size + 1) * 4194304 > capacity * 3019899` used below.
-/

namespace Zinc

/-- The three-valued per-bucket tag of the engine (`zinc::detail::BucketState`). -/
inductive BucketState where
  | empty
  | full
  | tombstone
deriving DecidableEq

/-- A `RawHashSet`/`RawHashMap` table, instantiated at map-shaped slots
(`SlotValue = std::pair<K, V>`, `key_from = .first`): the value array
(uninitialized buckets are `none`), the parallel meta array, the separately
tracked `size_` field, and the hash functor member `hash_`. -/
structure Table (K V : Type) where
  slots : List (Option (K × V))
  meta : List BucketState
  size : Nat
  hash : K → Nat

variable {K V : Type} [DecidableEq K]

/-- `RawHashSet::bucket_count`, i.e. the `capacity_` field: the common length
of the slot and meta arrays. -/
def bucketCount (t : Table K V) : Nat := t.meta.length

/-- `RawHashSet::meta_at(index)`: the state of bucket `index`. -/
def metaAt (t : Table K V) (index : Nat) : BucketState :=
  t.meta.getD index BucketState.empty

/-- The key stored in bucket `index`, i.e. `Traits::key_from(values_at(index))`
(`key_from` of the map traits projects `.first`). -/
def keyAt (t : Table K V) (index : Nat) : Option K :=
  (t.slots.getD index none).map Prod.fst

/-- `RawHashSet::full_and_key_eq`: a bucket counts as a hit when it is `Full`
and its key compares equal to the probed key. -/
def fullAndKeyEq (t : Table K V) (key : K) (state : BucketState) (index : Nat) : Bool :=
  if state = BucketState.full then decide (keyAt t index = some key) else false

/-- `RawHashSet::probe_for<K, ReturnTombstones>`: linear probing from `index`
with wraparound.  The C++ loop runs forever when no bucket ever satisfies a
stop condition; the fuel argument (always instantiated with `bucketCount`,
which bounds the number of distinct buckets a wrapping probe can visit) makes
that case return `none`. -/
def probeFor (t : Table K V) (returnTombstones : Bool) (key : K) :
    Nat → Nat → Option (Nat × BucketState)
  | 0, _ => none
  | fuel + 1, index =>
    if metaAt t index = BucketState.empty ∨ fullAndKeyEq t key (metaAt t index) index = true then
      some (index, metaAt t index)
    else if returnTombstones = true ∧ metaAt t index = BucketState.tombstone then
      some (index, metaAt t index)
    else probeFor t returnTombstones key fuel ((index + 1) % bucketCount t)

/-- `RawHashSet::hash_key_with_count`: `hash_ref()(key) % capacity`.  The
modulo is C++ undefined behaviour when `capacity == 0`, modelled as `none`. -/
def hashKeyWithCount (t : Table K V) (key : K) (capacity : Nat) : Option Nat :=
  if capacity = 0 then none else some (t.hash key % capacity)

/-- `RawHashSet::hash_key`: hash with the current bucket count. -/
def hashKey (t : Table K V) (key : K) : Option Nat :=
  hashKeyWithCount t key (bucketCount t)

/-- `RawHashSet::find`: probe without tombstone-stopping; an `Empty` outcome
means `end()` (modelled as `some none`), otherwise the bucket index of the
match is returned.  The outer `none` is undefined behaviour (modulo by zero
or a never-terminating probe). -/
def find? (t : Table K V) (key : K) : Option (Option Nat) :=
  match hashKey t key with
  | none => none
  | some h =>
    match probeFor t false key (bucketCount t) h with
    | none => none
    | some (index, state) =>
      if state = BucketState.empty then some none else some (some index)

/-- Numerator of the exact rational value of the `float` literal `0.72f`. -/
def mlfNum : Nat := 3019899

/-- Denominator (2^22) of the exact rational value of `0.72f`. -/
def mlfDen : Nat := 4194304

/-- `Traits::max_load_factor()`, the exact rational value of `0.72f`. -/
def maxLoadFactor : ℚ := (mlfNum : ℚ) / (mlfDen : ℚ)

/-- `RawHashSet::should_resize`: `size() + 1 > bucket_count() * max_load_factor()`,
stated over the integers by clearing the denominator of `0.72f`. -/
def shouldResize (t : Table K V) : Bool :=
  decide ((t.size + 1) * mlfDen > bucketCount t * mlfNum)

/-- One step of `RawHashSet::setup_new_allocation`'s `for_each_full_slot` loop:
a `Full` bucket is relocated to index `hash(key) mod newCap` of the fresh
buffer — the transfer writes directly at that index (no probing), exactly as
`alloc + hash` / `meta[hash] = full` do in the source. -/
def transferStep (t : Table K V) (newCap : Nat)
    (acc : List (Option (K × V)) × List BucketState) (index : Nat) :
    List (Option (K × V)) × List BucketState :=
  if metaAt t index = BucketState.full then
    match t.slots.getD index none with
    | some kv =>
      (acc.1.set (t.hash kv.1 % newCap) (some kv),
        acc.2.set (t.hash kv.1 % newCap) BucketState.full)
    | none => acc
  else acc

/-- `RawHashSet::rehash(new_size)`: when `new_size > bucket_count()`, allocate
a fresh buffer (all states `Empty`), transfer every `Full` slot in ascending
index order via `setup_new_allocation`, and install the new buffer.  `size_`
is not touched.  Otherwise do nothing. -/
def rehash (t : Table K V) (newSize : Nat) : Table K V :=
  if newSize > bucketCount t then
    { t with
        slots := ((List.range (bucketCount t)).foldl (transferStep t newSize)
          (List.replicate newSize none, List.replicate newSize BucketState.empty)).1,
        meta := ((List.range (bucketCount t)).foldl (transferStep t newSize)
          (List.replicate newSize none, List.replicate newSize BucketState.empty)).2 }
  else t

/-- `RawHashSet::rehash_if_required`: rehash to double capacity when the
load-factor check fires. -/
def rehashIfRequired (t : Table K V) : Table K V :=
  if shouldResize t then rehash t (bucketCount t * 2) else t

/-- `RawHashSet::insert(value)`: run the load-factor check, probe with
tombstone-stopping from `hash(key) mod capacity`, construct at a non-`Full`
target (incrementing `size_` only when the target was `Empty`), and report
`(table, inserted, index)`.  `none` models the undefined cases (modulo by
zero on a zero-capacity table, or a probe that never terminates). -/
def insert (t : Table K V) (value : K × V) : Option (Table K V × Bool × Nat) :=
  let t1 := rehashIfRequired t
  match hashKey t1 value.1 with
  | none => none
  | some h =>
    match probeFor t1 true value.1 (bucketCount t1) h with
    | none => none
    | some (index, state) =>
      if state ≠ BucketState.full then
        some ({ t1 with
                  slots := t1.slots.set index (some value),
                  meta := t1.meta.set index BucketState.full,
                  size := t1.size + (if state = BucketState.empty then 1 else 0) },
          true, index)
      else some (t1, false, index)

/-- `RawHashMap::try_emplace(key, args...)`: probes with tombstone-stopping and
constructs the pair piecewise at a non-`Full` target.  Faithfully to the
source, it performs no `rehash_if_required()` call before probing. -/
def tryEmplace (t : Table K V) (key : K) (mapped : V) : Option (Table K V × Bool × Nat) :=
  match hashKey t key with
  | none => none
  | some h =>
    match probeFor t true key (bucketCount t) h with
    | none => none
    | some (index, state) =>
      if state ≠ BucketState.full then
        some ({ t with
                  slots := t.slots.set index (some (key, mapped)),
                  meta := t.meta.set index BucketState.full,
                  size := t.size + (if state = BucketState.empty then 1 else 0) },
          true, index)
      else some (t, false, index)

/-- `RawHashSet::RawHashSet(const RawHashSet&)`: allocate a same-capacity
buffer, copy the meta array verbatim, `copy_to` every `Full` slot (non-full
buckets stay uninitialized).  Faithfully to the source, the member `size_` is
left at its default initializer `0` — the copy constructor never copies it. -/
def copyConstruct (t : Table K V) : Table K V :=
  { slots := (List.range (bucketCount t)).map
      (fun index => if metaAt t index = BucketState.full then t.slots.getD index none else none),
    meta := t.meta,
    size := 0,
    hash := t.hash }

/-- `RawHashMap::at(key)`: find the key; throw `std::out_of_range` (modelled
as `Except.error ()`) when it is absent; otherwise the function returns `*it`,
which denotes the whole stored entry — the pair, not its `.second` half. -/
def at' (t : Table K V) (key : K) : Option (Except Unit (Option (K × V))) :=
  match find? t key with
  | none => none
  | some none => some (Except.error ())
  | some (some index) => some (Except.ok (t.slots.getD index none))

/-- `RawHashSet::operator==` for distinct objects: after the `size()` check the
body is a TODO stub that returns `true`, so only sizes are compared. -/
def rawSetEq (a b : Table K V) : Bool :=
  decide (a.size = b.size)

/-- `RawHashSet::RawHashSet(initial_capacity)` (and, at capacity `0`, the
defaulted `RawHashSet()`): an allocation of `capacity` uninitialized slots
with all states `Empty` and `size_ = 0`. -/
def mkTable (K V : Type) (capacity : Nat) (hash : K → Nat) : Table K V :=
  { slots := List.replicate capacity none,
    meta := List.replicate capacity BucketState.empty,
    size := 0,
    hash := hash }

/-- Sequential insertion of a list of values, threading the `Option` of
`insert` (a single undefined insert poisons the run). -/
def insertMany (t : Table K V) : List (K × V) → Option (Table K V)
  | [] => some t
  | v :: vs =>
    match insert t v with
    | none => none
    | some r => insertMany r.1 vs

/-- The bucket visited by the `j`-th step of a linear probe starting at
`start`: `(start + j) mod bucket_count()`. -/
def probeIndex (t : Table K V) (start j : Nat) : Nat :=
  (start + j) % bucketCount t

/-- The buckets at which a lookup probe (`find`/`contains`/`count`,
`ReturnTombstones = false`) stops: an `Empty` bucket or a `Full` bucket whose
key equals the searched key — never a `Tombstone`. -/
def lookupStops (t : Table K V) (key : K) (index : Nat) : Prop :=
  metaAt t index = BucketState.empty ∨
    (metaAt t index = BucketState.full ∧ keyAt t index = some key)

/-- The buckets at which an insertion probe (`ReturnTombstones = true`) stops:
additionally any `Tombstone` bucket. -/
def insertStops (t : Table K V) (key : K) (index : Nat) : Prop :=
  metaAt t index = BucketState.empty ∨ metaAt t index = BucketState.tombstone ∨
    (metaAt t index = BucketState.full ∧ keyAt t index = some key)

/-- The stop condition of `probe_for` as selected by `ReturnTombstones`. -/
def stopsAt (t : Table K V) (returnTombstones : Bool) (key : K) (index : Nat) : Prop :=
  if returnTombstones then insertStops t key index else lookupStops t key index

/-- A bucket is a hit exactly when it is `Full` and holds the searched key. -/
theorem fullAndKeyEq_eq_true_iff (t : Table K V) (key : K) (state : BucketState) (index : Nat) :
    fullAndKeyEq t key state index = true ↔
      state = BucketState.full ∧ keyAt t index = some key := by
  rw [fullAndKeyEq]
  by_cases h : state = BucketState.full <;> simp [h]

omit [DecidableEq K] in
/-- The zeroth probe step visits the start bucket itself. -/
theorem probeIndex_zero (t : Table K V) (start : Nat) (hstart : start < bucketCount t) :
    probeIndex t start 0 = start := by
  rw [probeIndex, Nat.add_zero]
  exact Nat.mod_eq_of_lt hstart

omit [DecidableEq K] in
/-- Advancing the start of a probe by one position shifts its step indices. -/
theorem probeIndex_succ (t : Table K V) (start j : Nat) :
    probeIndex t ((start + 1) % bucketCount t) j = probeIndex t start (j + 1) := by
  rw [probeIndex, probeIndex, Nat.mod_add_mod]
  congr 1
  omega

/-- The stop condition of `probeFor` at a bucket, re-expressed through the
branch conditions of its body. -/
theorem stopsAt_iff (t : Table K V) (rt : Bool) (key : K) (index : Nat) :
    stopsAt t rt key index ↔
      ((metaAt t index = BucketState.empty ∨ fullAndKeyEq t key (metaAt t index) index = true)
        ∨ (rt = true ∧ metaAt t index = BucketState.tombstone)) := by
  cases rt
  all_goals
    simp only [stopsAt, lookupStops, insertStops, fullAndKeyEq_eq_true_iff,
      if_true, if_false, Bool.false_eq_true, false_and, true_and,
      or_false, reduceIte]
  all_goals tauto

/-- Soundness of the linear probe: a successful `probeFor` returns a bucket
whose state it reports exactly, that satisfies the stop condition selected by
`ReturnTombstones`, and that is the first bucket in probe order doing so. -/
theorem probeFor_sound (t : Table K V) (rt : Bool) (key : K) (hcap : 0 < bucketCount t) :
    ∀ fuel start index state, start < bucketCount t →
      probeFor t rt key fuel start = some (index, state) →
      state = metaAt t index ∧ stopsAt t rt key index ∧
        ∃ j, j < fuel ∧ index = probeIndex t start j ∧
          ∀ jp, jp < j → ¬ stopsAt t rt key (probeIndex t start jp) := by
  intro fuel
  induction fuel with
  | zero =>
    intro start index state _ h
    simp [probeFor] at h
  | succ fuel ih =>
    intro start index state hstart h
    simp only [probeFor] at h
    by_cases h1 : metaAt t start = BucketState.empty
        ∨ fullAndKeyEq t key (metaAt t start) start = true
    · rw [if_pos h1, Option.some.injEq, Prod.mk.injEq] at h
      obtain ⟨rfl, rfl⟩ := h
      refine ⟨rfl, (stopsAt_iff t rt key start).mpr (Or.inl h1), 0, Nat.succ_pos fuel,
        (probeIndex_zero t start hstart).symm, fun jp hjp => absurd hjp (Nat.not_lt_zero jp)⟩
    · rw [if_neg h1] at h
      by_cases h2 : rt = true ∧ metaAt t start = BucketState.tombstone
      · rw [if_pos h2, Option.some.injEq, Prod.mk.injEq] at h
        obtain ⟨rfl, rfl⟩ := h
        refine ⟨rfl, (stopsAt_iff t rt key start).mpr (Or.inr h2), 0, Nat.succ_pos fuel,
          (probeIndex_zero t start hstart).symm, fun jp hjp => absurd hjp (Nat.not_lt_zero jp)⟩
      · rw [if_neg h2] at h
        obtain ⟨hstate, hstop, j, hj, hidx, hmin⟩ :=
          ih ((start + 1) % bucketCount t) index state (Nat.mod_lt _ hcap) h
        refine ⟨hstate, hstop, j + 1, Nat.succ_lt_succ hj, ?_, ?_⟩
        · rw [← probeIndex_succ]
          exact hidx
        · intro jp hjp
          cases jp with
          | zero =>
            rw [probeIndex_zero t start hstart]
            intro hst
            rcases (stopsAt_iff t rt key start).mp hst with hA | hB
            · exact h1 hA
            · exact h2 hB
          | succ jq =>
            rw [← probeIndex_succ]
            exact hmin jq (Nat.lt_of_succ_lt_succ hjp)

/-- Completeness of the linear probe: if some bucket within the fuel bound
satisfies the stop condition, the probe terminates with a result. -/
theorem probeFor_complete (t : Table K V) (rt : Bool) (key : K) (hcap : 0 < bucketCount t) :
    ∀ fuel start, start < bucketCount t →
      (∃ j, j < fuel ∧ stopsAt t rt key (probeIndex t start j)) →
      (probeFor t rt key fuel start).isSome := by
  intro fuel
  induction fuel with
  | zero =>
    intro start _ hex
    obtain ⟨j, hj, _⟩ := hex
    exact absurd hj (Nat.not_lt_zero j)
  | succ fuel ih =>
    intro start hstart hex
    obtain ⟨j, hj, hstop⟩ := hex
    simp only [probeFor]
    by_cases h1 : metaAt t start = BucketState.empty
        ∨ fullAndKeyEq t key (metaAt t start) start = true
    · rw [if_pos h1]
      rfl
    · rw [if_neg h1]
      by_cases h2 : rt = true ∧ metaAt t start = BucketState.tombstone
      · rw [if_pos h2]
        rfl
      · rw [if_neg h2]
        apply ih ((start + 1) % bucketCount t) (Nat.mod_lt _ hcap)
        cases j with
        | zero =>
          rw [probeIndex_zero t start hstart] at hstop
          rcases (stopsAt_iff t rt key start).mp hstop with hA | hB
          · exact absurd hA h1
          · exact absurd hB h2
        | succ jq =>
          refine ⟨jq, Nat.lt_of_succ_lt_succ hj, ?_⟩
          rw [probeIndex_succ]
          exact hstop

/-- C1: the claim states that a rehash to a strictly larger capacity preserves
`size()` and membership, relocating each `Full` bucket by linear probing from
`hash(key) mod new_capacity` for the first `Empty` slot.  Evaluating the code:
a capacity-4 identity-hash table holding keys 3 (bucket 3) and 11 (bucket 0)
finds 11 before `rehash(8)`, but `setup_new_allocation` writes each element
directly at `hash(key) mod 8` with no probing, so key 3 (3 mod 8 = 3)
overwrites key 11 (11 mod 8 = 3): afterwards `size()` is still 2 while
`find(11)` is `end()` — membership is not preserved. -/
theorem C1_rehash_drops_colliding_key :
    ((insertMany (mkTable Nat Nat 4 (fun k => k)) [(3, 30), (11, 110)]).map (fun t =>
        (find? t 11, t.size, find? (rehash t 8) 11, (rehash t 8).size,
          bucketCount (rehash t 8))))
      = some (some (some 0), 2, some none, 2, 8) := rfl

/-- C2: the claim states copy-construction preserves `bucket_count()`, the
state array, the `Full` slots, and `size()`.  Evaluating the code on a
capacity-4 table holding (1, 10): capacity, meta array and the sole `Full`
slot are copied, but the copy constructor never initializes `size_` from the
source, so the copy reports `size() = 0` while the source reports `1`. -/
theorem C2_copy_construction_loses_size :
    ((insertMany (mkTable Nat Nat 4 (fun k => k)) [(1, 10)]).map (fun t =>
        ((copyConstruct t).meta, t.meta, (copyConstruct t).slots,
          bucketCount (copyConstruct t), t.size, (copyConstruct t).size)))
      = some ([BucketState.empty, BucketState.full, BucketState.empty, BucketState.empty],
          [BucketState.empty, BucketState.full, BucketState.empty, BucketState.empty],
          [none, some (1, 10), none, none], 4, 1, 0) := rfl

/-- C3: the claim states `try_emplace` performs the same pre-insert
load-factor check and rehash as `insert`.  Evaluating both on a capacity-4
table of size 2 (keys 3 and 0) with a fresh key 5: `insert` first runs
`rehash_if_required()` (3·4194304 > 4·3019899 fires) and ends with
`bucket_count() = 8`, while `try_emplace` probes immediately with no check
and ends with `bucket_count() = 4`. -/
theorem C3_try_emplace_skips_load_factor_check :
    ((insertMany (mkTable Nat Nat 4 (fun k => k)) [(3, 30), (0, 5)]).map (fun t =>
        ((tryEmplace t 5 50).map (fun r => (bucketCount r.1, r.1.size, r.2.1)),
          (insert t (5, 50)).map (fun r => (bucketCount r.1, r.1.size, r.2.1)))))
      = some (some (4, 3, true), some (8, 3, true)) := rfl

/-- C4: the claim states table equality holds exactly when sizes match and
every element of the left table occurs in the right one, so equal-size tables
with different elements compare unequal.  Evaluating `RawHashSet::operator==`
(a TODO stub that returns `true` after the size check) on a = {1} and
b = {2}: it reports `true` although element 1 of a is absent from b
(`find` in b is `end()`). -/
theorem C4_set_equality_stub_ignores_elements :
    ((insertMany (mkTable Nat Nat 4 (fun k => k)) [(1, 0)]).bind (fun a =>
        (insertMany (mkTable Nat Nat 4 (fun k => k)) [(2, 0)]).map (fun b =>
          (rawSetEq a b, find? b 1, a.size, b.size))))
      = some (true, some none, 1, 1) := rfl

/-- C5 counterexample: the claim states that, with capacity 32 and max load
factor 0.72, the 23rd insert of a distinct key triggers a rehash to capacity
64 before completing.  Evaluating the code: after 22 inserts the 23rd insert
completes with `bucket_count()` still 32 (the check compares 23 against
32·0.72f ≈ 23.04, which does not fire), so no rehash to 64 happens. -/
theorem C5_no_rehash_on_23rd_insert :
    ((insertMany (mkTable Nat Nat 32 (fun k => k))
        ((List.range 22).map (fun k => (k, k)))).bind (fun t =>
          (insert t (22, 22)).map (fun r => (bucketCount r.1, r.1.size, r.2.1))))
      = some (32, 23, true) := rfl

/-- C5 amended: the 23rd insert completes without rehashing, leaving capacity
32 and size 23; it is the 24th insert that triggers exactly one rehash, to
capacity 64, before completing (24 > 32·0.72f fires and doubles 32 once). -/
theorem C5_rehash_on_24th_insert :
    (((insertMany (mkTable Nat Nat 32 (fun k => k))
        ((List.range 23).map (fun k => (k, k)))).map (fun t => (bucketCount t, t.size)))
      = some (32, 23))
    ∧ (((insertMany (mkTable Nat Nat 32 (fun k => k))
        ((List.range 23).map (fun k => (k, k)))).bind (fun t =>
          (insert t (23, 23)).map (fun r => (bucketCount r.1, r.1.size))))
      = some (64, 24)) := ⟨rfl, rfl⟩

/-- C7: the claim states that after any insertion on a reachable table,
`size() ≤ bucket_count() * max_load_factor()`.  Evaluating the code on a
capacity-1 map: `try_emplace(0, 0)` fills the table to size 1 without any
load-factor check, and the following `insert((1, 1))` completes (one doubling
to capacity 2) with `size() = 2`, yet 2 > 2 · 0.72f = 1.44…, so the bound is
violated immediately after that insertion. -/
theorem C7_load_factor_bound_violated :
    (((tryEmplace (mkTable Nat Nat 1 (fun k => k)) 0 0).bind (fun r =>
        insert r.1 (1, 1))).map (fun r => (r.1.size, bucketCount r.1))
      = some (2, 2))
    ∧ ¬ ((2 : ℚ) ≤ (2 : ℚ) * maxLoadFactor) := by
  constructor
  · rfl
  · rw [maxLoadFactor, mlfNum, mlfDen]
    norm_num

/-- C8: the claim states inserting the same value twice leaves `size()`
unchanged and the second call constructs nothing, reporting `inserted =
false`.  Evaluating the code on a capacity-4 identity-hash table holding key
3: the first `insert (11, 110)` places 11 at bucket 0 (size 2, inserted); the
second `insert (11, 110)` first triggers a rehash to 8 whose non-probing
transfer lets key 3 (3 mod 8 = 3) overwrite key 11 (11 mod 8 = 3), then finds
11 absent and constructs it again — reporting `inserted = true` with `size()`
growing from 2 to 3. -/
theorem C8_double_insert_grows_size :
    (((insertMany (mkTable Nat Nat 4 (fun k => k)) [(3, 30)]).bind (fun t =>
        insert t (11, 110))).bind (fun r1 =>
          (insert r1.1 (11, 110)).map (fun r2 => (r1.1.size, r1.2.1, r2.1.size, r2.2.1))))
      = some (2, true, 3, true) := rfl

/-- C9: the claim states `at(k)` returns a reference to the mapped value when
the key is found and signals "key not found" exactly when `find(k) == end()`.
Evaluating the code on the map {1 ↦ 10}: `at(2)` correctly signals the error,
but `at(1)` returns `*it` — the whole stored entry `(1, 10)` — rather than a
reference to the mapped value `10` (`it->second`). -/
theorem C9_at_returns_entry_not_mapped_value :
    ((insertMany (mkTable Nat Nat 8 (fun k => k)) [(1, 10)]).map (fun t =>
        (at' t 1, at' t 2, t.size, bucketCount t)))
      = some (some (Except.ok (some (1, 10))), some (Except.error ()), 1, 8) := rfl

/-- C10: the claim states an insert into a default-constructed table
(`bucket_count() == 0`) first establishes a strictly positive capacity via the
pre-insert rehash, so `hash(key) % 0` is unreachable through `insert`.
Evaluating the code: `rehash_if_required()` calls `rehash(0 * 2)`, and
`rehash(0)` is a no-op because `0 > bucket_count()` is false, so the capacity
stays 0 and `insert` evaluates `hash(key) % 0` — modelled as the undefined
outcome `none`. -/
theorem C10_insert_into_default_table_divides_by_zero :
    insert (mkTable Nat Nat 0 (fun k => k)) (1, 1) = none
    ∧ bucketCount (rehashIfRequired (mkTable Nat Nat 0 (fun k => k))) = 0 := ⟨rfl, rfl⟩

/-- C6: for every table and key, a lookup probe (`ReturnTombstones = false`,
as used by `find`/`contains`/`count`) stops only at an `Empty` bucket or at a
`Full` bucket holding an equal key — never at a `Tombstone` — and only after
passing buckets at which no such stop applies (it scans through tombstones
and non-matching full buckets); an insertion probe (`ReturnTombstones =
true`) stops at the first bucket in probe order that is `Empty`, `Tombstone`,
or `Full` with an equal key, with no backtracking; and whenever some bucket
along the probe is `Empty`, both probes do terminate with a result. -/
theorem C6_probe_semantics (t : Table K V) (key : K) (start : Nat)
    (hcap : 0 < bucketCount t) (hstart : start < bucketCount t) :
    (∀ index state,
        probeFor t false key (bucketCount t) start = some (index, state) →
        state = metaAt t index ∧ state ≠ BucketState.tombstone ∧
        lookupStops t key index ∧
        ∃ j, j < bucketCount t ∧ index = probeIndex t start j ∧
          ∀ jp, jp < j → ¬ lookupStops t key (probeIndex t start jp))
    ∧ (∀ index state,
        probeFor t true key (bucketCount t) start = some (index, state) →
        state = metaAt t index ∧ insertStops t key index ∧
        ∃ j, j < bucketCount t ∧ index = probeIndex t start j ∧
          ∀ jp, jp < j → ¬ insertStops t key (probeIndex t start jp))
    ∧ ((∃ j, j < bucketCount t ∧ metaAt t (probeIndex t start j) = BucketState.empty) →
        (probeFor t false key (bucketCount t) start).isSome
          ∧ (probeFor t true key (bucketCount t) start).isSome) := by
  refine ⟨?_, ?_, ?_⟩
  · intro index state h
    obtain ⟨hstate, hstop, j, hj, hidx, hmin⟩ :=
      probeFor_sound t false key hcap (bucketCount t) start index state hstart h
    have hl : lookupStops t key index := by simpa [stopsAt] using hstop
    refine ⟨hstate, ?_, hl, j, hj, hidx, fun jp hjp => ?_⟩
    · rcases hl with he | ⟨hf, _⟩
      · rw [hstate, he]
        decide
      · rw [hstate, hf]
        decide
    · have hm := hmin jp hjp
      simpa [stopsAt] using hm
  · intro index state h
    obtain ⟨hstate, hstop, j, hj, hidx, hmin⟩ :=
      probeFor_sound t true key hcap (bucketCount t) start index state hstart h
    refine ⟨hstate, by simpa [stopsAt] using hstop, j, hj, hidx, fun jp hjp => ?_⟩
    have hm := hmin jp hjp
    simpa [stopsAt] using hm
  · intro hex
    obtain ⟨j, hj, hempty⟩ := hex
    constructor
    · exact probeFor_complete t false key hcap (bucketCount t) start hstart
        ⟨j, hj, by simp [stopsAt, lookupStops, hempty]⟩
    · exact probeFor_complete t true key hcap (bucketCount t) start hstart
        ⟨j, hj, by simp [stopsAt, insertStops, hempty]⟩

/-- A concrete capacity-3 table used to instantiate `C6_probe_semantics`. -/
def C6ExampleTable : Table Nat Nat := mkTable Nat Nat 3 (fun k => k)

/-- Witness for C6: both hypotheses of `C6_probe_semantics` hold at a concrete
capacity-3 table with key 1 and start bucket 0, and the theorem applies. -/
theorem C6_probe_semantics_witness :
    (0 < bucketCount C6ExampleTable ∧ (0 : Nat) < bucketCount C6ExampleTable) ∧
    ((∀ index state,
        probeFor C6ExampleTable false 1 (bucketCount C6ExampleTable) 0 = some (index, state) →
        state = metaAt C6ExampleTable index ∧ state ≠ BucketState.tombstone ∧
        lookupStops C6ExampleTable 1 index ∧
        ∃ j, j < bucketCount C6ExampleTable ∧ index = probeIndex C6ExampleTable 0 j ∧
          ∀ jp, jp < j → ¬ lookupStops C6ExampleTable 1 (probeIndex C6ExampleTable 0 jp))
    ∧ (∀ index state,
        probeFor C6ExampleTable true 1 (bucketCount C6ExampleTable) 0 = some (index, state) →
        state = metaAt C6ExampleTable index ∧ insertStops C6ExampleTable 1 index ∧
        ∃ j, j < bucketCount C6ExampleTable ∧ index = probeIndex C6ExampleTable 0 j ∧
          ∀ jp, jp < j → ¬ insertStops C6ExampleTable 1 (probeIndex C6ExampleTable 0 jp))
    ∧ ((∃ j, j < bucketCount C6ExampleTable ∧
          metaAt C6ExampleTable (probeIndex C6ExampleTable 0 j) = BucketState.empty) →
        (probeFor C6ExampleTable false 1 (bucketCount C6ExampleTable) 0).isSome
          ∧ (probeFor C6ExampleTable true 1 (bucketCount C6ExampleTable) 0).isSome)) :=
  ⟨⟨by decide, by decide⟩, C6_probe_semantics C6ExampleTable 1 0 (by decide) (by decide)⟩

end Zinc
